import Mathlib

/-!
Verification development for the LS-8 CPU emulator (`ls8/cpu.py`).

The emulator is shallowly embedded: register and memory files become
`Fin`-indexed functions over `Int` (Python integers are unbounded), list
indexing follows Python semantics (negative indices wrap once, anything
further out raises `IndexError`), and each instruction handler becomes a
function from machine states to an `Outcome` that records either the new
state, a halt, or a propagated Python exception together with the state the
mutable CPU object was left in when the exception escaped.
-/

namespace LS8

/-- Python list indexing on a list of length `n`: indices `0..n-1` are used
directly, indices `-n..-1` wrap to `n+i`, anything else raises `IndexError`
(modelled as `none`). -/
def pyIdx (n : Nat) (i : Int) : Option (Fin n) :=
  if h : 0 ≤ i ∧ i < (n : Int) then
    some ⟨i.toNat, by omega⟩
  else if h2 : -(n : Int) ≤ i ∧ i < 0 then
    some ⟨(i + n).toNat, by omega⟩
  else
    none

/-- Python `xs[i]` on a length-`n` list modelled as `Fin n → Int`. -/
def pyGet {n : Nat} (f : Fin n → Int) (i : Int) : Option Int :=
  (pyIdx n i).map f

/-- Python `xs[i] = v` on a length-`n` list modelled as `Fin n → Int`. -/
def pySet {n : Nat} (f : Fin n → Int) (i v : Int) : Option (Fin n → Int) :=
  (pyIdx n i).map fun j => Function.update f j v

/-! Opcode constants from `cpu.py`. -/

def HLT : Int := 0b00000001
def LDI : Int := 0b10000010
def PRN : Int := 0b01000111
def NOP : Int := 0b00000000
def PUSH : Int := 0b01000101
def POP : Int := 0b01000110
def CALL : Int := 0b01010000
def RET : Int := 0b00010001
def JMP : Int := 0b01010100
def JEQ : Int := 0b01010101
def JNE : Int := 0b01010110

def MUL : Int := 0b10100010
def ADD : Int := 0b10100000
def CMP : Int := 0b10100111

/-! Flag constants from `cpu.py`. -/

def EQUAL : Int := 0b00000001
def LESSTHAN : Int := 0b00000100
def GREATERTHAN : Int := 0b00000010

/-- Python exceptions the emulator can raise: a bare `IndexError` from list
indexing (it carries no payload), a `KeyError` from the dispatch dict lookup
(it carries the missing key), and the explicit
`Exception("Unsupported ALU operation")`. -/
inductive PyErr where
  | indexError : PyErr
  | keyError (k : Int) : PyErr
  | unsupportedALU : PyErr
deriving DecidableEq, Repr

/-- Machine state of `CPU`: the 8 general registers, the 256-byte RAM, the
five internal registers (`int_registers[0..4]`, here named fields), and the
list of values printed so far by `PRN`. -/
structure CPU where
  registers : Fin 8 → Int
  ram : Fin 256 → Int
  pc : Int
  ir : Int
  mar : Int
  mdr : Int
  fl : Int
  output : List Int

/-- `CPU.__init__`: all registers zero except register 7 (the stack pointer),
which starts at `0xF4`; RAM all zero; all internal registers zero. -/
def CPU.init : CPU :=
  { registers := Function.update (fun _ => 0) 7 0xF4
    ram := fun _ => 0
    pc := 0
    ir := 0
    mar := 0
    mdr := 0
    fl := 0
    output := [] }

/-- Result of executing a handler or a fetch-decode-execute step: the updated
state, a halt (only produced by the run loop on `HLT`), or an escaped Python
exception together with the state the CPU object was left in. -/
inductive Outcome where
  | ok (st : CPU) : Outcome
  | halted (st : CPU) : Outcome
  | exn (e : PyErr) (st : CPU) : Outcome

/-- The CPU state inside an outcome (the Python object survives an escaped
exception, so every outcome carries a state). -/
def Outcome.finalState : Outcome → CPU
  | .ok st => st
  | .halted st => st
  | .exn _ st => st

/-- The exception carried by an outcome, if any. -/
def Outcome.errOf : Outcome → Option PyErr
  | .exn e _ => some e
  | _ => none

/-- Whether the outcome is a normal (non-halt, non-exception) state. -/
def Outcome.isOk : Outcome → Bool
  | .ok _ => true
  | _ => false

/-- Whether the outcome is a halt. -/
def Outcome.isHalted : Outcome → Bool
  | .halted _ => true
  | _ => false

/-- Sequencing of outcomes: continue only from a normal state. -/
def Outcome.bind (o : Outcome) (f : CPU → Outcome) : Outcome :=
  match o with
  | .ok st => f st
  | r => r

/-- `CPU.sp` property: the stack pointer is general register 7. -/
def CPU.sp (st : CPU) : Int := st.registers 7

/-- `CPU.sp` setter: writing SP writes general register 7. -/
def CPU.setSp (st : CPU) (v : Int) : CPU :=
  { st with registers := Function.update st.registers 7 v }

/-- `CPU.ram_read(mar)`: `return self.ram[mar]`. -/
def CPU.ram_read (st : CPU) (mar : Int) : Option Int :=
  pyGet st.ram mar

/-- `CPU.ram_write(mdr, mar)`: `self.ram[mar] = mdr`. -/
def CPU.ram_write (st : CPU) (mdr mar : Int) : Option CPU :=
  (pySet st.ram mar mdr).map fun m => { st with ram := m }

/-- `CPU.ldi`: `self.registers[op_a] = op_b; self.pc += 3`. -/
def CPU.ldi (st : CPU) (op op_a op_b : Int) : Outcome :=
  match pySet st.registers op_a op_b with
  | none => .exn .indexError st
  | some r => .ok { st with registers := r, pc := st.pc + 3 }

/-- `CPU.prn`: `print(self.registers[op_a]); self.pc += 2`. -/
def CPU.prn (st : CPU) (op op_a op_b : Int) : Outcome :=
  match pyGet st.registers op_a with
  | none => .exn .indexError st
  | some v => .ok { st with output := st.output ++ [v], pc := st.pc + 2 }

/-- `CPU.nop`: `self.pc += 1`. -/
def CPU.nop (st : CPU) (op op_a op_b : Int) : Outcome :=
  .ok { st with pc := st.pc + 1 }

/-- `CPU.push`: `self.sp -= 1; self.ram_write(self.registers[op_a], self.sp);
self.pc += 2`.  Note the SP decrement happens before the register read, so an
out-of-range `op_a` escapes with SP already decremented. -/
def CPU.push (st : CPU) (op op_a op_b : Int) : Outcome :=
  match pyGet (st.setSp (st.sp - 1)).registers op_a with
  | none => .exn .indexError (st.setSp (st.sp - 1))
  | some v =>
    match (st.setSp (st.sp - 1)).ram_write v (st.setSp (st.sp - 1)).sp with
    | none => .exn .indexError (st.setSp (st.sp - 1))
    | some st2 => .ok { st2 with pc := st2.pc + 2 }

/-- `CPU.pop`: `self.registers[op_a] = self.ram_read(self.sp); self.sp += 1;
self.pc += 2`. -/
def CPU.pop (st : CPU) (op op_a op_b : Int) : Outcome :=
  match st.ram_read st.sp with
  | none => .exn .indexError st
  | some v =>
    match pySet st.registers op_a v with
    | none => .exn .indexError st
    | some r =>
      let st1 : CPU := { st with registers := r }
      .ok { st1.setSp (st1.sp + 1) with pc := st1.pc + 2 }

/-- `CPU.call`: `self.sp -= 1; self.ram_write(self.pc + 2, self.sp);
self.pc = self.registers[op_a]`. -/
def CPU.call (st : CPU) (op op_a op_b : Int) : Outcome :=
  match (st.setSp (st.sp - 1)).ram_write ((st.setSp (st.sp - 1)).pc + 2)
      (st.setSp (st.sp - 1)).sp with
  | none => .exn .indexError (st.setSp (st.sp - 1))
  | some st2 =>
    match pyGet st2.registers op_a with
    | none => .exn .indexError st2
    | some t => .ok { st2 with pc := t }

/-- `CPU.ret`: `self.pc = self.ram_read(self.sp); self.sp += 1`. -/
def CPU.ret (st : CPU) (op op_a op_b : Int) : Outcome :=
  match st.ram_read st.sp with
  | none => .exn .indexError st
  | some v =>
    let st1 : CPU := { st with pc := v }
    .ok (st1.setSp (st1.sp + 1))

/-- `CPU.jmp`: `self.pc = self.registers[op_a]`. -/
def CPU.jmp (st : CPU) (op op_a op_b : Int) : Outcome :=
  match pyGet st.registers op_a with
  | none => .exn .indexError st
  | some t => .ok { st with pc := t }

/-- `CPU.jeq`: jump to `registers[op_a]` when `fl == EQUAL`, else `pc += 2`. -/
def CPU.jeq (st : CPU) (op op_a op_b : Int) : Outcome :=
  if st.fl = EQUAL then
    match pyGet st.registers op_a with
    | none => .exn .indexError st
    | some t => .ok { st with pc := t }
  else
    .ok { st with pc := st.pc + 2 }

/-- `CPU.jne`: jump to `registers[op_a]` when `fl != EQUAL`, else `pc += 2`. -/
def CPU.jne (st : CPU) (op op_a op_b : Int) : Outcome :=
  if st.fl ≠ EQUAL then
    match pyGet st.registers op_a with
    | none => .exn .indexError st
    | some t => .ok { st with pc := t }
  else
    .ok { st with pc := st.pc + 2 }

/-- `CPU.alu`: ADD and MUL store the exact Python integer result (no masking
in the source); CMP sets the flags register by the `==`/`<`/`>` chain; any
other op raises `Exception("Unsupported ALU operation")`. -/
def CPU.alu (st : CPU) (op reg_a reg_b : Int) : Outcome :=
  if op = ADD then
    match pyGet st.registers reg_a with
    | none => .exn .indexError st
    | some va =>
      match pyGet st.registers reg_b with
      | none => .exn .indexError st
      | some vb =>
        match pySet st.registers reg_a (va + vb) with
        | none => .exn .indexError st
        | some r => .ok { st with registers := r, pc := st.pc + 3 }
  else if op = MUL then
    match pyGet st.registers reg_a with
    | none => .exn .indexError st
    | some va =>
      match pyGet st.registers reg_b with
      | none => .exn .indexError st
      | some vb =>
        match pySet st.registers reg_a (va * vb) with
        | none => .exn .indexError st
        | some r => .ok { st with registers := r, pc := st.pc + 3 }
  else if op = CMP then
    match pyGet st.registers reg_a with
    | none => .exn .indexError st
    | some va =>
      match pyGet st.registers reg_b with
      | none => .exn .indexError st
      | some vb =>
        let st1 : CPU :=
          if va = vb then { st with fl := EQUAL }
          else if va < vb then { st with fl := LESSTHAN }
          else if vb < va then { st with fl := GREATERTHAN }
          else st
        .ok { st1 with pc := st1.pc + 3 }
  else
    .exn .unsupportedALU st

/-- The keys of the dispatch dict built in `CPU.__init__`. -/
def dispatchKeys : List Int :=
  [NOP, LDI, PRN, MUL, ADD, PUSH, POP, CALL, RET, CMP, JMP, JEQ, JNE]

/-- Dispatch-dict lookup and call: `self.dispatch[op](op, op_a, op_b)`; a
missing key raises `KeyError(op)`. -/
def CPU.execInstr (st : CPU) (op op_a op_b : Int) : Outcome :=
  if op = NOP then st.nop op op_a op_b
  else if op = LDI then st.ldi op op_a op_b
  else if op = PRN then st.prn op op_a op_b
  else if op = MUL then st.alu op op_a op_b
  else if op = ADD then st.alu op op_a op_b
  else if op = PUSH then st.push op op_a op_b
  else if op = POP then st.pop op op_a op_b
  else if op = CALL then st.call op op_a op_b
  else if op = RET then st.ret op op_a op_b
  else if op = CMP then st.alu op op_a op_b
  else if op = JMP then st.jmp op op_a op_b
  else if op = JEQ then st.jeq op op_a op_b
  else if op = JNE then st.jne op op_a op_b
  else .exn (.keyError op) st

/-- The opcode byte the next step will fetch (`self.ram_read(self.pc)`). -/
def CPU.curOp (st : CPU) : Option Int :=
  st.ram_read st.pc

/-- One iteration of the `run` loop: fetch the opcode into IR, fetch both
operand bytes, halt on `HLT`, otherwise dispatch. -/
def CPU.step (st : CPU) : Outcome :=
  match st.ram_read st.pc with
  | none => .exn .indexError st
  | some opv =>
    let st1 : CPU := { st with ir := opv }
    match st1.ram_read (st1.pc + 1) with
    | none => .exn .indexError st1
    | some a =>
      match st1.ram_read (st1.pc + 2) with
      | none => .exn .indexError st1
      | some b =>
        if st1.ir = HLT then .halted st1
        else st1.execInstr st1.ir a b

/-- `CPU.run` with explicit fuel: iterate `step` until halt or exception
(the Python loop has no step bound; fuel only truncates). -/
def CPU.runFuel : CPU → Nat → Outcome
  | st, 0 => .ok st
  | st, n + 1 =>
    match st.step with
    | .ok st1 => st1.runFuel n
    | r => r

/-- Iterate `step`, keeping only runs in which every step so far produced a
normal state; `none` once the run halts or raises. -/
def CPU.stepsOk : CPU → Nat → Option CPU
  | st, 0 => some st
  | st, n + 1 =>
    match st.step with
    | .ok st1 => st1.stepsOk n
    | _ => none

/-- `CPU.load`, generalized over the start address: copy the program into RAM
one byte at a time (`self.ram[address] = instruction; address += 1`). -/
def CPU.loadFrom : CPU → Int → List Int → Outcome
  | st, _, [] => .ok st
  | st, addr, x :: xs =>
    match pySet st.ram addr x with
    | none => .exn .indexError st
    | some m => CPU.loadFrom { st with ram := m } (addr + 1) xs

/-- `CPU.load(program)`: copy the program into RAM starting at address 0. -/
def CPU.load (st : CPU) (prog : List Int) : Outcome :=
  st.loadFrom 0 prog

/-- Construct a fresh CPU, load a program, and run it with the given fuel. -/
def runProg (prog : List Int) (fuel : Nat) : Outcome :=
  match CPU.init.load prog with
  | .ok st => st.runFuel fuel
  | r => r

/-! ### Basic facts about Python list indexing -/

theorem pyIdx_natCast {n : Nat} (i : Fin n) : pyIdx n (i.val : Int) = some i := by
  have h1 : (0 : Int) ≤ (i.val : Int) := Int.natCast_nonneg _
  have h2 : ((i.val : Int)) < (n : Int) := by exact_mod_cast i.isLt
  unfold pyIdx
  rw [dif_pos (And.intro h1 h2)]
  exact congrArg some (Fin.ext (Int.toNat_natCast i.val))

theorem pyGet_fin {n : Nat} (f : Fin n → Int) (i : Fin n) :
    pyGet f (i.val : Int) = some (f i) := by
  simp [pyGet, pyIdx_natCast]

theorem pySet_fin {n : Nat} (f : Fin n → Int) (i : Fin n) (v : Int) :
    pySet f (i.val : Int) v = some (Function.update f i v) := by
  simp [pySet, pyIdx_natCast]

theorem pyIdx_none {n : Nat} {i : Int} (h : (n : Int) ≤ i ∨ i < -(n : Int)) :
    pyIdx n i = none := by
  unfold pyIdx
  rw [dif_neg (by omega), dif_neg (by omega)]

theorem pyGet_none {n : Nat} (f : Fin n → Int) {i : Int}
    (h : (n : Int) ≤ i ∨ i < -(n : Int)) : pyGet f i = none := by
  simp [pyGet, pyIdx_none h]

theorem pySet_none {n : Nat} (f : Fin n → Int) (v : Int) {i : Int}
    (h : (n : Int) ≤ i ∨ i < -(n : Int)) : pySet f i v = none := by
  simp [pySet, pyIdx_none h]

theorem pyIdx_nonneg {n : Nat} {i : Int} (h1 : 0 ≤ i) (h2 : i < (n : Int)) :
    pyIdx n i = some ⟨i.toNat, by omega⟩ := by
  unfold pyIdx
  rw [dif_pos (And.intro h1 h2)]

theorem pyGet_nonneg {n : Nat} (f : Fin n → Int) {i : Int}
    (h1 : 0 ≤ i) (h2 : i < (n : Int)) :
    pyGet f i = some (f ⟨i.toNat, by omega⟩) := by
  simp [pyGet, pyIdx_nonneg h1 h2]

theorem pySet_nonneg {n : Nat} (f : Fin n → Int) (v : Int) {i : Int}
    (h1 : 0 ≤ i) (h2 : i < (n : Int)) :
    pySet f i v = some (Function.update f ⟨i.toNat, by omega⟩ v) := by
  simp [pySet, pyIdx_nonneg h1 h2]

theorem pyIdx_neg {n : Nat} {i : Int} (h1 : -(n : Int) ≤ i) (h2 : i < 0) :
    pyIdx n i = pyIdx n (i + n) := by
  unfold pyIdx
  rw [dif_neg (by omega), dif_pos (And.intro h1 h2),
    dif_pos (by omega : (0 : Int) ≤ i + n ∧ i + n < (n : Int))]

theorem pyGet_neg {n : Nat} (f : Fin n → Int) {i : Int}
    (h1 : -(n : Int) ≤ i) (h2 : i < 0) :
    pyGet f i = pyGet f (i + n) := by
  simp [pyGet, pyIdx_neg h1 h2]

/-! ### C1: ADD / MUL arithmetic -/

/-- C1: the claim says ADD reduces modulo 256 and that after
`LDI r0 250; LDI r1 10; ADD r0 r1` register 0 holds 4.  Running exactly that
program on a fresh CPU halts with register 0 holding 260: the ALU keeps the
exact Python integer sum, so the claim is false. -/
theorem C1_counterexample :
    (runProg [0x82, 0, 250, 0x82, 1, 10, 0xA0, 0, 1, 0x01] 10).isHalted = true ∧
    (runProg [0x82, 0, 250, 0x82, 1, 10, 0xA0, 0, 1, 0x01] 10).finalState.registers 0
      = 260 := by
  constructor <;> decide

/-- C1 (amended): for register indices a, b in 0..7, ADD stores the exact
(unbounded) integer sum `registers[a] + registers[b]` into `registers[a]` and
MUL stores the exact product; no reduction modulo 256 is performed, PC
advances by 3, and RAM and the flags register are untouched. -/
theorem C1_add_mul_exact (st : CPU) (a b : Fin 8) :
    (∃ st', st.alu ADD (a.val : Int) (b.val : Int) = .ok st' ∧
      st'.registers a = st.registers a + st.registers b ∧
      st'.pc = st.pc + 3 ∧ st'.ram = st.ram ∧ st'.fl = st.fl) ∧
    (∃ st', st.alu MUL (a.val : Int) (b.val : Int) = .ok st' ∧
      st'.registers a = st.registers a * st.registers b ∧
      st'.pc = st.pc + 3 ∧ st'.ram = st.ram ∧ st'.fl = st.fl) := by
  constructor
  · refine ⟨{ st with
        registers := Function.update st.registers a (st.registers a + st.registers b),
        pc := st.pc + 3 }, ?_, ?_, rfl, rfl, rfl⟩
    · unfold CPU.alu
      rw [if_pos rfl]
      simp only [pyGet_fin, pySet_fin]
    · simp
  · refine ⟨{ st with
        registers := Function.update st.registers a (st.registers a * st.registers b),
        pc := st.pc + 3 }, ?_, ?_, rfl, rfl, rfl⟩
    · unfold CPU.alu
      rw [if_neg (by decide), if_pos rfl]
      simp only [pyGet_fin, pySet_fin]
    · simp

/-! ### C2: memory accesses outside 0..255 -/

/-- C2: the claim says reading address -1 must abort with a bounds violation
and never return a value from a different cell.  On a CPU whose cell 255
holds 42, `ram_read(-1)` succeeds and returns that 42 (Python negative
indexing wraps), so the claim is false. -/
theorem C2_counterexample :
    CPU.ram_read { CPU.init with ram := Function.update CPU.init.ram 255 42 } (-1)
      = some 42 ∧
    ({ CPU.init with ram := Function.update CPU.init.ram 255 42 } : CPU).ram 255
      = 42 := by
  constructor <;> decide

/-- C2 (amended): memory accesses with addresses ≥ 256 or < -256 raise a bare
`IndexError` (terminating the run, but the error does not carry the address),
while addresses in [-256, -1] wrap Python-style: the access reads the cell at
`address + 256` and succeeds. -/
theorem C2_oob_behavior (st : CPU) (i v : Int) :
    ((256 ≤ i ∨ i < -256) → st.ram_read i = none ∧ st.ram_write v i = none) ∧
    ((-256 ≤ i ∧ i < 0) →
      st.ram_read i = st.ram_read (i + 256) ∧ (st.ram_read i).isSome = true) := by
  constructor
  · intro h
    refine ⟨pyGet_none _ (by push_cast; omega), ?_⟩
    unfold CPU.ram_write
    rw [pySet_none _ _ (by push_cast; omega)]
    rfl
  · intro h
    have e : st.ram_read i = st.ram_read (i + 256) := by
      unfold CPU.ram_read
      have := pyGet_neg st.ram (n := 256) (i := i) (by push_cast; omega)
        (by omega)
      rw [this]
      norm_num
    refine ⟨e, ?_⟩
    rw [e]
    unfold CPU.ram_read
    rw [pyGet_nonneg st.ram (by omega) (by push_cast; omega)]
    rfl

/-- Witness for C2: reading address 300 fails, and reading address -1 is the
same as reading address 255. -/
theorem C2_oob_behavior_witness :
    CPU.ram_read CPU.init 300 = none ∧
    CPU.ram_read CPU.init (-1) = CPU.ram_read CPU.init (-1 + 256) :=
  ⟨((C2_oob_behavior CPU.init 300 0).1 (by omega)).1,
   ((C2_oob_behavior CPU.init (-1) 0).2 (by omega)).1⟩

/-! ### C3: opcodes with no registered handler -/

/-- C3: the claim says the error raised on an unhandled opcode identifies both
the opcode and the PC at which it was fetched.  Running `[2]` and `[0, 2]`
fetches the unhandled opcode 2 at PC 0 and at PC 1 respectively, yet both runs
terminate with the identical error `KeyError 2`: the surfaced error carries
only the opcode and cannot identify the PC. -/
theorem C3_counterexample :
    (runProg [2] 5).errOf = some (.keyError 2) ∧
    (runProg [2] 5).finalState.pc = 0 ∧
    (runProg [0, 2] 5).errOf = some (.keyError 2) ∧
    (runProg [0, 2] 5).finalState.pc = 1 := by
  refine ⟨?_, ?_, ?_, ?_⟩ <;> decide

/-- C3 (amended): whenever execution reaches an opcode byte that is not in the
dispatch map and is not the halt opcode, the run terminates with a `KeyError`
identifying that opcode (but not the PC); the instruction is never silently
skipped. -/
theorem C3_decode_keyerror (st : CPU) (c a b : Int) (fuel : Nat)
    (h0 : st.ram_read st.pc = some c)
    (h1 : st.ram_read (st.pc + 1) = some a)
    (h2 : st.ram_read (st.pc + 2) = some b)
    (hh : c ≠ HLT) (hd : c ∉ dispatchKeys) :
    st.runFuel (fuel + 1) = .exn (.keyError c) { st with ir := c } := by
  simp only [dispatchKeys, List.mem_cons, List.not_mem_nil, or_false, not_or] at hd
  obtain ⟨d1, d2, d3, d4, d5, d6, d7, d8, d9, d10, d11, d12, d13⟩ := hd
  have hstep : st.step = .exn (.keyError c) { st with ir := c } := by
    unfold CPU.step
    unfold CPU.ram_read at h0 h1 h2 ⊢
    rw [h0]
    simp only [h1, h2]
    rw [if_neg hh]
    unfold CPU.execInstr
    rw [if_neg d1, if_neg d2, if_neg d3, if_neg d4, if_neg d5, if_neg d6,
      if_neg d7, if_neg d8, if_neg d9, if_neg d10, if_neg d11, if_neg d12,
      if_neg d13]
  unfold CPU.runFuel
  rw [hstep]

/-- Witness for C3: on a fresh CPU whose RAM holds the single byte 2 (an
opcode with no handler), one fuelled run step terminates with `KeyError 2`. -/
theorem C3_decode_keyerror_witness :
    ({ CPU.init with ram := Function.update CPU.init.ram 0 2 } : CPU).runFuel 1
      = .exn (.keyError 2)
          { { CPU.init with ram := Function.update CPU.init.ram 0 2 } with ir := 2 } :=
  C3_decode_keyerror { CPU.init with ram := Function.update CPU.init.ram 0 2 }
    2 0 0 0 (by decide) (by decide) (by decide) (by decide) (by decide)

/-! ### C4: register indices outside 0..7 -/

/-- C4: the claim says an instruction with a register-index operand outside
0..7 aborts without modifying any register or memory cell.  Executing PUSH
with register operand 8 on a fresh CPU does abort with an `IndexError`, but
only after decrementing the stack pointer: register 7 changes from 244 to
243, so the claim is false (and the bare `IndexError` carries no index). -/
theorem C4_counterexample :
    (CPU.init.push PUSH 8 0).errOf = some PyErr.indexError ∧
    (CPU.init.push PUSH 8 0).finalState.registers 7 = 243 ∧
    CPU.init.registers 7 = 244 := by
  refine ⟨?_, ?_, ?_⟩ <;> decide

/-- C4 (amended): there is no explicit 0..7 check; a register-index operand
that is 8 or larger makes the Python list access raise a bare `IndexError`
(which does not surface the index) and the run aborts.  LDI, PRN and the ALU
abort with the state unchanged, but PUSH decrements SP (register 7) before
the failing register read, so that register is modified. -/
theorem C4_index_oob (st : CPU) (a b : Int) (ha : 8 ≤ a) :
    st.ldi LDI a b = .exn .indexError st ∧
    st.prn PRN a b = .exn .indexError st ∧
    st.alu ADD a b = .exn .indexError st ∧
    st.push PUSH a b = .exn .indexError (st.setSp (st.sp - 1)) := by
  have hg : pyGet st.registers a = none := pyGet_none _ (by push_cast; omega)
  have hs : pySet st.registers a b = none := pySet_none _ _ (by push_cast; omega)
  refine ⟨?_, ?_, ?_, ?_⟩
  · unfold CPU.ldi
    rw [hs]
  · unfold CPU.prn
    rw [hg]
  · unfold CPU.alu
    rw [if_pos rfl, hg]
  · have hg1 : pyGet (st.setSp (st.sp - 1)).registers a = none :=
      pyGet_none _ (by push_cast; omega)
    simp only [CPU.push, hg1]

/-- Witness for C4: with register operand 8 on a fresh CPU, LDI, PRN and ADD
abort with the state unchanged, and PUSH aborts with SP decremented. -/
theorem C4_index_oob_witness :
    CPU.init.ldi LDI 8 0 = .exn .indexError CPU.init ∧
    CPU.init.prn PRN 8 0 = .exn .indexError CPU.init ∧
    CPU.init.alu ADD 8 0 = .exn .indexError CPU.init ∧
    CPU.init.push PUSH 8 0 = .exn .indexError (CPU.init.setSp (CPU.init.sp - 1)) :=
  C4_index_oob CPU.init 8 0 (by norm_num)

/-! ### C5: CMP flag semantics -/

/-- C5: for register indices a, b in 0..7 and any register contents, CMP
succeeds, replaces the flags register with exactly one of EQUAL, LESSTHAN,
GREATERTHAN according to the ordering of `registers[a]` and `registers[b]`
(regardless of the previous flags value), advances PC by 3, and leaves
registers and RAM unchanged. -/
theorem C5_cmp_flags (st : CPU) (a b : Fin 8) :
    ∃ st', st.alu CMP (a.val : Int) (b.val : Int) = .ok st' ∧
      (st'.fl = EQUAL ∨ st'.fl = LESSTHAN ∨ st'.fl = GREATERTHAN) ∧
      (st'.fl = EQUAL ↔ st.registers a = st.registers b) ∧
      (st'.fl = LESSTHAN ↔ st.registers a < st.registers b) ∧
      (st'.fl = GREATERTHAN ↔ st.registers b < st.registers a) ∧
      st'.pc = st.pc + 3 ∧ st'.registers = st.registers ∧ st'.ram = st.ram := by
  unfold CPU.alu
  rw [if_neg (by decide), if_neg (by decide), if_pos rfl]
  simp only [pyGet_fin]
  rcases lt_trichotomy (st.registers a) (st.registers b) with hlt | heq | hgt
  · rw [if_neg (ne_of_lt hlt), if_pos hlt]
    refine ⟨{ st with fl := LESSTHAN, pc := st.pc + 3 }, rfl, Or.inr (Or.inl rfl),
      ⟨fun h => absurd h (show (LESSTHAN : Int) ≠ EQUAL by decide),
        fun h => absurd h (ne_of_lt hlt)⟩,
      ⟨fun _ => hlt, fun _ => rfl⟩,
      ⟨fun h => absurd h (show (LESSTHAN : Int) ≠ GREATERTHAN by decide),
        fun h => (lt_asymm hlt h).elim⟩,
      rfl, rfl, rfl⟩
  · rw [if_pos heq]
    refine ⟨{ st with fl := EQUAL, pc := st.pc + 3 }, rfl, Or.inl rfl,
      ⟨fun _ => heq, fun _ => rfl⟩,
      ⟨fun h => absurd h (show (EQUAL : Int) ≠ LESSTHAN by decide),
        fun h => absurd heq (ne_of_lt h)⟩,
      ⟨fun h => absurd h (show (EQUAL : Int) ≠ GREATERTHAN by decide),
        fun h => absurd heq.symm (ne_of_lt h)⟩,
      rfl, rfl, rfl⟩
  · rw [if_neg (ne_of_gt hgt), if_neg (not_lt_of_lt hgt), if_pos hgt]
    refine ⟨{ st with fl := GREATERTHAN, pc := st.pc + 3 }, rfl,
      Or.inr (Or.inr rfl),
      ⟨fun h => absurd h (show (GREATERTHAN : Int) ≠ EQUAL by decide),
        fun h => absurd h (ne_of_gt hgt)⟩,
      ⟨fun h => absurd h (show (GREATERTHAN : Int) ≠ LESSTHAN by decide),
        fun h => (lt_asymm hgt h).elim⟩,
      ⟨fun _ => hgt, fun _ => rfl⟩,
      rfl, rfl, rfl⟩

/-! ### C6: push/pop round trip -/

/-- The instruction-effect sequence `LDI r v; PUSH r; LDI r 0; POP r`. -/
def c6seq (st : CPU) (r v : Int) : Outcome :=
  (((st.ldi LDI r v).bind (fun s => s.push PUSH r 0)).bind
    (fun s => s.ldi LDI r 0)).bind (fun s => s.pop POP r 0)

/-- C6: the claim quantifies over every register r in 0..7, but register 7 is
the stack pointer: on a fresh CPU (SP₀ = 244, all touched stack addresses in
bounds) the sequence `LDI r7 5; PUSH r7; LDI r7 0; POP r7` completes and
leaves register 7 holding 1, not the pushed value 5 (and hence SP = 1 ≠ 244),
so the claim is false. -/
theorem C6_counterexample :
    (c6seq CPU.init 7 5).isOk = true ∧
    (c6seq CPU.init 7 5).finalState.registers 7 = 1 ∧
    CPU.init.sp = 244 := by
  refine ⟨?_, ?_, ?_⟩ <;> decide

/-- C6 (amended): for every register r in 0..6 (that is, excluding register 7,
which the stack pointer aliases), every value v in [0,255], and any starting
SP with the touched stack addresses in bounds, the sequence
`LDI r v; PUSH r; LDI r 0; POP r` completes normally, leaves `registers[r]`
holding v, and restores SP to its pre-push value. -/
theorem C6_push_pop_roundtrip (st : CPU) (r : Fin 8) (v : Int)
    (hr : r ≠ 7) (hv0 : 0 ≤ v) (hv : v ≤ 255)
    (hsp1 : 1 ≤ st.sp) (hsp2 : st.sp ≤ 256) :
    ∃ st', c6seq st (r.val : Int) v = .ok st' ∧
      st'.registers r = v ∧ st'.sp = st.sp := by
  have h7r : (7 : Fin 8) ≠ r := Ne.symm hr
  unfold CPU.sp at hsp1 hsp2
  obtain ⟨spn, hspn⟩ : ∃ spn : Fin 256, (spn.val : Int) = st.registers 7 - 1 :=
    ⟨⟨(st.registers 7 - 1).toNat, by omega⟩, Int.toNat_of_nonneg (by omega)⟩
  have hstep1 : st.ldi LDI (r.val : Int) v
      = .ok { st with
          registers := Function.update st.registers r v,
          pc := st.pc + 3 } := by
    simp only [CPU.ldi, pySet_fin]
  have hstep2 : ({ st with
        registers := Function.update st.registers r v,
        pc := st.pc + 3 } : CPU).push PUSH (r.val : Int) 0
      = .ok { st with
          registers := Function.update (Function.update st.registers r v) 7
            (spn.val : Int),
          ram := Function.update st.ram spn v,
          pc := st.pc + 3 + 2 } := by
    simp only [CPU.push, CPU.setSp, CPU.sp, CPU.ram_write,
      Function.update_noteq h7r, pyGet_fin, Function.update_same,
      Function.update_noteq hr]
    rw [← hspn]
    simp only [pySet_fin, Option.map_some']
  have hstep3 : ({ st with
        registers := Function.update (Function.update st.registers r v) 7
          (spn.val : Int),
        ram := Function.update st.ram spn v,
        pc := st.pc + 3 + 2 } : CPU).ldi LDI (r.val : Int) 0
      = .ok { st with
          registers := Function.update
            (Function.update (Function.update st.registers r v) 7
              (spn.val : Int)) r 0,
          ram := Function.update st.ram spn v,
          pc := st.pc + 3 + 2 + 3 } := by
    simp only [CPU.ldi, pySet_fin]
  have hstep4 : ({ st with
        registers := Function.update
          (Function.update (Function.update st.registers r v) 7
            (spn.val : Int)) r 0,
        ram := Function.update st.ram spn v,
        pc := st.pc + 3 + 2 + 3 } : CPU).pop POP (r.val : Int) 0
      = .ok { st with
          registers := Function.update
            (Function.update
              (Function.update
                (Function.update (Function.update st.registers r v) 7
                  (spn.val : Int)) r 0) r v)
            7 ((spn.val : Int) + 1),
          ram := Function.update st.ram spn v,
          pc := st.pc + 3 + 2 + 3 + 2 } := by
    simp only [CPU.pop, CPU.ram_read, CPU.setSp, CPU.sp,
      Function.update_noteq hr, Function.update_noteq h7r,
      Function.update_same, pyGet_fin, pySet_fin]
  refine ⟨{ st with
      registers := Function.update
        (Function.update
          (Function.update
            (Function.update (Function.update st.registers r v) 7
              (spn.val : Int)) r 0) r v)
        7 ((spn.val : Int) + 1),
      ram := Function.update st.ram spn v,
      pc := st.pc + 3 + 2 + 3 + 2 }, ?_, ?_, ?_⟩
  · unfold c6seq
    rw [hstep1]
    simp only [Outcome.bind]
    rw [hstep2]
    simp only [Outcome.bind]
    rw [hstep3]
    simp only [Outcome.bind]
    rw [hstep4]
  · simp only [Function.update_noteq hr, Function.update_same]
  · unfold CPU.sp
    simp only [Function.update_same]
    omega

/-- Witness for C6: on a fresh CPU with r = 0 and v = 5, the sequence
completes, register 0 holds 5 again, and SP is back at 244. -/
theorem C6_push_pop_roundtrip_witness :
    ∃ st', c6seq CPU.init ((0 : Fin 8).val : Int) 5 = .ok st' ∧
      st'.registers 0 = 5 ∧ st'.sp = CPU.init.sp :=
  C6_push_pop_roundtrip CPU.init 0 5 (by decide) (by norm_num) (by norm_num)
    (by decide) (by decide)

/-! ### C7: CALL / RET round trip -/

/-- C7: CALL decrements SP, writes the return address PC+2 to `memory[SP]`,
and sets PC from the target register (read after the SP decrement, which for
any register other than 7 is its pre-call value); a subsequent RET with the
stack undisturbed restores PC to PC+2 and SP to its pre-call value, and RET
itself touches no general register other than SP (register 7), no RAM cell,
and not the flags register. -/
theorem C7_call_ret_roundtrip (st : CPU) (r : Fin 8)
    (hsp1 : 1 ≤ st.sp) (hsp2 : st.sp ≤ 256) :
    ∃ st1 st2,
      st.call CALL (r.val : Int) 0 = .ok st1 ∧
      st1.sp = st.sp - 1 ∧
      st1.ram_read st1.sp = some (st.pc + 2) ∧
      st1.pc = st1.registers r ∧
      (r ≠ 7 → st1.pc = st.registers r) ∧
      (∀ i : Fin 8, i ≠ 7 → st1.registers i = st.registers i) ∧
      st1.ret RET 0 0 = .ok st2 ∧
      st2.pc = st.pc + 2 ∧
      st2.sp = st.sp ∧
      (∀ i : Fin 8, i ≠ 7 → st2.registers i = st1.registers i) ∧
      st2.ram = st1.ram ∧ st2.fl = st1.fl := by
  unfold CPU.sp at hsp1 hsp2
  obtain ⟨spn, hspn⟩ : ∃ spn : Fin 256, (spn.val : Int) = st.registers 7 - 1 :=
    ⟨⟨(st.registers 7 - 1).toNat, by omega⟩, Int.toNat_of_nonneg (by omega)⟩
  refine ⟨{ st with
      registers := Function.update st.registers 7 (spn.val : Int),
      ram := Function.update st.ram spn (st.pc + 2),
      pc := Function.update st.registers 7 (spn.val : Int) r },
    { st with
      registers := Function.update
        (Function.update st.registers 7 (spn.val : Int)) 7 ((spn.val : Int) + 1),
      ram := Function.update st.ram spn (st.pc + 2),
      pc := st.pc + 2 },
    ?_, ?_, ?_, rfl, ?_, ?_, ?_, rfl, ?_, ?_, rfl, rfl⟩
  · simp only [CPU.call, CPU.setSp, CPU.sp, CPU.ram_write, Function.update_same]
    rw [← hspn]
    simp only [pySet_fin, Option.map_some', pyGet_fin]
  · unfold CPU.sp
    simp only [Function.update_same]
    exact hspn
  · unfold CPU.sp CPU.ram_read
    simp only [Function.update_same, pyGet_fin, Function.update_same]
  · intro hr7
    exact Function.update_noteq hr7 _ _
  · intro i hi
    exact Function.update_noteq hi _ _
  · simp only [CPU.ret, CPU.ram_read, CPU.sp, CPU.setSp, Function.update_same,
      pyGet_fin]
  · unfold CPU.sp
    simp only [Function.update_same]
    omega
  · intro i hi
    exact Function.update_noteq hi _ _

/-- Witness for C7: on a fresh CPU (SP = 244) calling through register 0. -/
theorem C7_call_ret_roundtrip_witness :
    ∃ st1 st2,
      CPU.init.call CALL ((0 : Fin 8).val : Int) 0 = .ok st1 ∧
      st1.sp = CPU.init.sp - 1 ∧
      st1.ram_read st1.sp = some (CPU.init.pc + 2) ∧
      st1.pc = st1.registers 0 ∧
      ((0 : Fin 8) ≠ 7 → st1.pc = CPU.init.registers 0) ∧
      (∀ i : Fin 8, i ≠ 7 → st1.registers i = CPU.init.registers i) ∧
      st1.ret RET 0 0 = .ok st2 ∧
      st2.pc = CPU.init.pc + 2 ∧
      st2.sp = CPU.init.sp ∧
      (∀ i : Fin 8, i ≠ 7 → st2.registers i = st1.registers i) ∧
      st2.ram = st1.ram ∧ st2.fl = st1.fl :=
  C7_call_ret_roundtrip CPU.init 0 (by decide) (by decide)

/-! ### C8: conditional jumps -/

/-- C8: JEQ jumps to `registers[r]` exactly when the flags register equals
EQUAL and otherwise advances PC by 2; JNE jumps exactly when the flags
register differs from EQUAL and otherwise advances PC by 2; in all four cases
the produced state differs from the input state only in PC (registers, flags
and RAM are untouched). -/
theorem C8_jeq_jne (st : CPU) (r : Fin 8) (b : Int) :
    (st.fl = EQUAL → st.jeq JEQ (r.val : Int) b = .ok { st with pc := st.registers r }) ∧
    (st.fl ≠ EQUAL → st.jeq JEQ (r.val : Int) b = .ok { st with pc := st.pc + 2 }) ∧
    (st.fl ≠ EQUAL → st.jne JNE (r.val : Int) b = .ok { st with pc := st.registers r }) ∧
    (st.fl = EQUAL → st.jne JNE (r.val : Int) b = .ok { st with pc := st.pc + 2 }) := by
  refine ⟨?_, ?_, ?_, ?_⟩
  · intro h
    unfold CPU.jeq
    rw [if_pos h]
    simp only [pyGet_fin]
  · intro h
    unfold CPU.jeq
    rw [if_neg h]
  · intro h
    unfold CPU.jne
    rw [if_pos h]
    simp only [pyGet_fin]
  · intro h
    unfold CPU.jne
    rw [if_neg (not_not_intro h)]

/-- Witness for C8: on a fresh CPU the flags register is 0 ≠ EQUAL, so JEQ
falls through and JNE jumps to the contents of register 0. -/
theorem C8_jeq_jne_witness :
    CPU.init.jeq JEQ ((0 : Fin 8).val : Int) 0
      = .ok { CPU.init with pc := CPU.init.pc + 2 } ∧
    CPU.init.jne JNE ((0 : Fin 8).val : Int) 0
      = .ok { CPU.init with pc := CPU.init.registers 0 } :=
  ⟨(C8_jeq_jne CPU.init 0 0).2.1 (by decide),
   (C8_jeq_jne CPU.init 0 0).2.2.1 (by decide)⟩

/-! ### Flags-register preservation helpers -/

theorem nop_fl (st : CPU) (op a b : Int) : (st.nop op a b).finalState.fl = st.fl := rfl

theorem ldi_fl (st : CPU) (op a b : Int) : (st.ldi op a b).finalState.fl = st.fl := by
  unfold CPU.ldi
  (repeat' split) <;> rfl

theorem prn_fl (st : CPU) (op a b : Int) : (st.prn op a b).finalState.fl = st.fl := by
  unfold CPU.prn
  (repeat' split) <;> rfl

theorem ram_write_fl (st : CPU) (v m : Int) (st' : CPU)
    (h : st.ram_write v m = some st') : st'.fl = st.fl := by
  unfold CPU.ram_write at h
  cases hp : pySet st.ram m v with
  | none =>
    rw [hp] at h
    exact Option.noConfusion h
  | some f =>
    rw [hp] at h
    simp only [Option.map_some'] at h
    injection h with h
    rw [← h]

theorem push_fl (st : CPU) (op a b : Int) : (st.push op a b).finalState.fl = st.fl := by
  unfold CPU.push
  split
  · rfl
  · split
    · rfl
    · rename_i st2 heq
      exact ram_write_fl (st.setSp (st.sp - 1)) _ _ st2 heq

theorem pop_fl (st : CPU) (op a b : Int) : (st.pop op a b).finalState.fl = st.fl := by
  unfold CPU.pop
  (repeat' split) <;> rfl

theorem call_fl (st : CPU) (op a b : Int) : (st.call op a b).finalState.fl = st.fl := by
  unfold CPU.call
  split
  · rfl
  · rename_i st2 heq
    have h2 : st2.fl = st.fl := ram_write_fl (st.setSp (st.sp - 1)) _ _ st2 heq
    split
    · exact h2
    · exact h2

theorem ret_fl (st : CPU) (op a b : Int) : (st.ret op a b).finalState.fl = st.fl := by
  unfold CPU.ret
  (repeat' split) <;> rfl

theorem jmp_fl (st : CPU) (op a b : Int) : (st.jmp op a b).finalState.fl = st.fl := by
  unfold CPU.jmp
  (repeat' split) <;> rfl

theorem jeq_fl (st : CPU) (op a b : Int) : (st.jeq op a b).finalState.fl = st.fl := by
  unfold CPU.jeq
  (repeat' split) <;> rfl

theorem jne_fl (st : CPU) (op a b : Int) : (st.jne op a b).finalState.fl = st.fl := by
  unfold CPU.jne
  (repeat' split) <;> rfl

theorem alu_fl (st : CPU) (op a b : Int) (h : op ≠ CMP) :
    (st.alu op a b).finalState.fl = st.fl := by
  unfold CPU.alu
  (repeat' split) <;> first
    | rfl
    | exact absurd (by assumption) h

/-- Every dispatched instruction except CMP leaves the flags register exactly
as it was, whether it completes or raises (an unhandled opcode also leaves it
unchanged). -/
theorem execInstr_fl (st : CPU) (op op_a op_b : Int) (h : op ≠ CMP) :
    (st.execInstr op op_a op_b).finalState.fl = st.fl := by
  unfold CPU.execInstr
  by_cases h1 : op = NOP
  · rw [if_pos h1]; exact nop_fl _ _ _ _
  rw [if_neg h1]
  by_cases h2 : op = LDI
  · rw [if_pos h2]; exact ldi_fl _ _ _ _
  rw [if_neg h2]
  by_cases h3 : op = PRN
  · rw [if_pos h3]; exact prn_fl _ _ _ _
  rw [if_neg h3]
  by_cases h4 : op = MUL
  · rw [if_pos h4]; exact alu_fl _ _ _ _ (by rw [h4]; decide)
  rw [if_neg h4]
  by_cases h5 : op = ADD
  · rw [if_pos h5]; exact alu_fl _ _ _ _ (by rw [h5]; decide)
  rw [if_neg h5]
  by_cases h6 : op = PUSH
  · rw [if_pos h6]; exact push_fl _ _ _ _
  rw [if_neg h6]
  by_cases h7 : op = POP
  · rw [if_pos h7]; exact pop_fl _ _ _ _
  rw [if_neg h7]
  by_cases h8 : op = CALL
  · rw [if_pos h8]; exact call_fl _ _ _ _
  rw [if_neg h8]
  by_cases h9 : op = RET
  · rw [if_pos h9]; exact ret_fl _ _ _ _
  rw [if_neg h9]
  rw [if_neg h]
  by_cases h11 : op = JMP
  · rw [if_pos h11]; exact jmp_fl _ _ _ _
  rw [if_neg h11]
  by_cases h12 : op = JEQ
  · rw [if_pos h12]; exact jeq_fl _ _ _ _
  rw [if_neg h12]
  by_cases h13 : op = JNE
  · rw [if_pos h13]; exact jne_fl _ _ _ _
  rw [if_neg h13]
  rfl

/-- One run-loop step whose fetched opcode is not CMP leaves the flags
register unchanged. -/
theorem step_fl (st st' : CPU) (h : st.step = .ok st') (hc : st.curOp ≠ some CMP) :
    st'.fl = st.fl := by
  unfold CPU.curOp CPU.ram_read at hc
  unfold CPU.step CPU.ram_read at h
  cases h0 : pyGet st.ram st.pc with
  | none =>
    simp only [h0] at h
    exact Outcome.noConfusion h
  | some opv =>
    rw [h0] at hc
    have hop : opv ≠ CMP := fun e => hc (by rw [e])
    simp only [h0] at h
    cases h1 : pyGet st.ram (st.pc + 1) with
    | none =>
      simp only [h1] at h
      exact Outcome.noConfusion h
    | some a =>
      simp only [h1] at h
      cases h2 : pyGet st.ram (st.pc + 2) with
      | none =>
        simp only [h2] at h
        exact Outcome.noConfusion h
      | some b =>
        simp only [h2] at h
        by_cases hh : opv = HLT
        · rw [if_pos hh] at h
          exact Outcome.noConfusion h
        · rw [if_neg hh] at h
          have hfl := execInstr_fl { st with ir := opv } opv a b hop
          rw [h] at hfl
          exact hfl

/-- Flags preservation along any sequence of normal steps in which no fetched
opcode is CMP. -/
theorem stepsOk_fl : ∀ (n : Nat) (st st' : CPU),
    st.stepsOk n = some st' →
    (∀ k, k < n → ∀ stk, st.stepsOk k = some stk → stk.curOp ≠ some CMP) →
    st'.fl = st.fl := by
  intro n
  induction n with
  | zero =>
    intro st st' h _
    unfold CPU.stepsOk at h
    injection h with h
    rw [h]
  | succ n ih =>
    intro st st' h hc
    unfold CPU.stepsOk at h
    cases hs : st.step with
    | ok st1 =>
      rw [hs] at h
      have hcur : st.curOp ≠ some CMP := hc 0 (Nat.succ_pos n) st rfl
      have h1 : st1.fl = st.fl := step_fl st st1 hs hcur
      have h2 : st'.fl = st1.fl := by
        refine ih st1 st' h ?_
        intro k hk stk hsk
        refine hc (k + 1) (Nat.succ_lt_succ hk) stk ?_
        unfold CPU.stepsOk
        rw [hs]
        exact hsk
      rw [h2, h1]
    | halted s =>
      rw [hs] at h
      exact Option.noConfusion h
    | exn e s =>
      rw [hs] at h
      exact Option.noConfusion h

/-- Loading a program touches only RAM: the flags register is unchanged. -/
theorem loadFrom_fl : ∀ (l : List Int) (st : CPU) (addr : Int) (st' : CPU),
    CPU.loadFrom st addr l = .ok st' → st'.fl = st.fl := by
  intro l
  induction l with
  | nil =>
    intro st addr st' h
    unfold CPU.loadFrom at h
    injection h with h
    rw [← h]
  | cons x xs ih =>
    intro st addr st' h
    unfold CPU.loadFrom at h
    cases hp : pySet st.ram addr x with
    | none =>
      simp only [hp] at h
      exact Outcome.noConfusion h
    | some m =>
      simp only [hp] at h
      exact ih { st with ram := m } (addr + 1) st' h

/-! ### C9: only CMP writes the flags register -/

/-- C9: for every opcode in the dispatch map other than CMP (NOP, LDI, PRN,
MUL, ADD, PUSH, POP, CALL, RET, JMP, JEQ, JNE), executing that instruction
from any state leaves the flags register unchanged, whether the handler
completes or raises. -/
theorem C9_fl_only_cmp (op op_a op_b : Int) (st : CPU)
    (hmem : op ∈ dispatchKeys) (hcmp : op ≠ CMP) :
    (st.execInstr op op_a op_b).finalState.fl = st.fl :=
  execInstr_fl st op op_a op_b hcmp

/-- Witness for C9: executing NOP on a fresh CPU leaves the flags register
unchanged. -/
theorem C9_fl_only_cmp_witness :
    (CPU.init.execInstr NOP 0 0).finalState.fl = CPU.init.fl :=
  C9_fl_only_cmp NOP 0 0 CPU.init (by decide) (by decide)

/-! ### C10: fresh flags and conditional jumps before the first CMP -/

/-- C10: a freshly constructed machine has flags register 0, distinct from
EQUAL = 1, GREATERTHAN = 2 and LESSTHAN = 4; and in any loaded run in which
no CMP opcode has been fetched in the steps executed so far, the flags are
still 0, so JEQ falls through (PC advances by 2) and JNE takes its jump (PC
becomes the target register's value), for every target register. -/
theorem C10_fresh_flags :
    CPU.init.fl = 0 ∧ EQUAL = 1 ∧ GREATERTHAN = 2 ∧ LESSTHAN = 4 ∧
    CPU.init.fl ≠ EQUAL ∧ CPU.init.fl ≠ GREATERTHAN ∧ CPU.init.fl ≠ LESSTHAN ∧
    ∀ (prog : List Int) (st0 st' : CPU) (n : Nat),
      CPU.init.load prog = .ok st0 →
      (∀ k, k < n → ∀ stk, st0.stepsOk k = some stk → stk.curOp ≠ some CMP) →
      st0.stepsOk n = some st' →
      st'.fl = 0 ∧
      (∀ (r : Fin 8) (b : Int),
        st'.jeq JEQ (r.val : Int) b = .ok { st' with pc := st'.pc + 2 } ∧
        st'.jne JNE (r.val : Int) b = .ok { st' with pc := st'.registers r }) := by
  refine ⟨rfl, rfl, rfl, rfl, by decide, by decide, by decide, ?_⟩
  intro prog st0 st' n hload hnocmp hsteps
  have hl : st0.fl = CPU.init.fl := loadFrom_fl prog CPU.init 0 st0 hload
  have hfl : st'.fl = 0 := by
    rw [stepsOk_fl n st0 st' hsteps hnocmp, hl]
    rfl
  refine ⟨hfl, ?_⟩
  intro r b
  constructor
  · unfold CPU.jeq
    rw [if_neg (show ¬st'.fl = EQUAL by rw [hfl]; decide)]
  · unfold CPU.jne
    rw [if_pos (show st'.fl ≠ EQUAL by rw [hfl]; decide)]
    simp only [pyGet_fin]

/-- Witness for C10: the zero-step run of the empty program on a fresh CPU
has flags 0, and JNE from register 0 takes its jump there. -/
theorem C10_fresh_flags_witness :
    CPU.init.fl = 0 ∧
    CPU.init.jne JNE ((0 : Fin 8).val : Int) 0
      = .ok { CPU.init with pc := CPU.init.registers 0 } := by
  have h := C10_fresh_flags
  have h2 := h.2.2.2.2.2.2.2 [] CPU.init CPU.init 0 rfl
    (fun k hk => absurd hk (Nat.not_lt_zero k)) rfl
  exact ⟨h.1, (h2.2 0 0).2⟩

end LS8
